import Mathlib

/-!
Shallow embedding of the custom static-analysis linter:
the `Linter` engine (src/linter/index.ts), the domain-dependencies rule and
the primitive-obsession rule (src/linter/rules/noTestNameWithShould.ts,
src/linter/rules/noPrimitiveObsession.ts) and the no-direct-shadcn-imports
rule. Tree-sitter syntax nodes are modelled as rose trees carrying the type
tag, text slice, start position, field map, named-child list and child list
that the rules consume. JavaScript regular expressions built by the
domain-dependencies rule escape only literal characters, so they are
modelled as literal leftmost substring matches, which is exact for every
configuration whose `domainPath` / `importAlias` contain no regex
metacharacters (as in all intended configurations).
-/

namespace Linting

/-- Single-quote character, used to build the rule messages. -/
def sq : String := String.singleton (Char.ofNat 39)

/-- Double-quote character. -/
def dq : String := String.singleton (Char.ofNat 34)

/-- Start position of a node (tree-sitter `startPosition`, 0-based). -/
structure Pos where
  row : Nat
  column : Nat
deriving DecidableEq, Repr

/-- A lint finding (src/linter/types.ts `LintError`). -/
structure LintError where
  file : String
  line : Nat
  column : Nat
  message : String
  ruleName : String
deriving DecidableEq, Repr

/-- A tree-sitter syntax node, restricted to the attributes the rules
consume: type tag, raw text, start position, named fields, named children
and the full child list used by the traversal. -/
inductive Node where
  | mk (ty : String) (text : String) (pos : Pos)
       (fields : List (String × Node))
       (named : List Node)
       (children : List Node) : Node

/-- The node's type tag (`node.type`). -/
def Node.type : Node → String
  | .mk ty _ _ _ _ _ => ty

/-- The node's raw source text (`node.text`). -/
def Node.text : Node → String
  | .mk _ tx _ _ _ _ => tx

/-- The node's start position (`node.startPosition`). -/
def Node.startPosition : Node → Pos
  | .mk _ _ p _ _ _ => p

/-- The node's named children (`node.namedChild(i)` for each i below
`node.namedChildCount`). -/
def Node.namedChildren : Node → List Node
  | .mk _ _ _ _ nm _ => nm

/-- The node's full child list (`node.children`). -/
def Node.children : Node → List Node
  | .mk _ _ _ _ _ cs => cs

/-- Field lookup (`node.childForFieldName(f)`): the first field entry with
the given name, if any. -/
def Node.childForFieldName (n : Node) (f : String) : Option Node :=
  match n with
  | .mk _ _ _ fs _ _ => (fs.find? (fun p => p.1 == f)).map (fun p => p.2)

/-- A rule (src/linter/types.ts `Rule`): a name plus a check function from
node and file path to an optional finding. -/
structure Rule where
  name : String
  check : Node → String → Option LintError

/-- The linter engine state (src/linter/index.ts `Linter`): the ordered rule
list, the optional parser and the initialized flag. The loaded parser is
modelled as a function from source text to the root node of its tree. -/
structure Linter where
  rules : List Rule
  parser : Option (String → Node)
  initialized : Bool

/-- A freshly constructed `Linter`: no rules, no parser, not initialized. -/
def Linter.new : Linter :=
  { rules := [], parser := none, initialized := false }

/-- `Linter.init`: a no-op when already initialized, otherwise installs the
loaded parser and sets the initialized flag. -/
def Linter.init (l : Linter) (p : String → Node) : Linter :=
  if l.initialized then l
  else { l with parser := some p, initialized := true }

/-- `Linter.addRule`: appends the rule to the ordered rule list. -/
def Linter.addRule (l : Linter) (r : Rule) : Linter :=
  { l with rules := l.rules ++ [r] }

mutual

/-- The recursive `traverse` closure inside `Linter.lint`: collect each
rule's finding at this node (in registration order), then recurse into the
children in source order. -/
def traverseNode (rules : List Rule) (filePath : String) : Node → List LintError
  | .mk ty tx p fs nm cs =>
      rules.filterMap (fun r => r.check (.mk ty tx p fs nm cs) filePath)
        ++ traverseChildren rules filePath cs

/-- Traversal of a child list, left to right. -/
def traverseChildren (rules : List Rule) (filePath : String) : List Node → List LintError
  | [] => []
  | c :: cs => traverseNode rules filePath c ++ traverseChildren rules filePath cs

end

/-- `Linter.lint`: fails when no parser is installed, otherwise parses the
source and traverses the resulting tree collecting findings. -/
def Linter.lint (l : Linter) (filePath sourceCode : String) :
    Except String (List LintError) :=
  match l.parser with
  | none => Except.error "Linter not initialized. Call init() first."
  | some parse => Except.ok (traverseNode l.rules filePath (parse sourceCode))

mutual

/-- Pre-order listing of all nodes of a tree: the node itself, then the
pre-order listings of its children in source order. -/
def preorder : Node → List Node
  | .mk ty tx p fs nm cs => .mk ty tx p fs nm cs :: preorderChildren cs

/-- Pre-order listing of a forest, left to right. -/
def preorderChildren : List Node → List Node
  | [] => []
  | c :: cs => preorder c ++ preorderChildren cs

end

/-- Concatenation of the per-node finding lists over a node list,
preserving order. -/
def collectAll (F : Node → List LintError) : List Node → List LintError
  | [] => []
  | n :: ns => F n ++ collectAll F ns

/-- Strong induction over syntax trees: to prove a property of every node
it suffices to prove it for a node assuming it for all its children. -/
def Node.strongRec {motive : Node → Prop}
    (step : ∀ ty tx p fs nm cs,
      (∀ c ∈ cs, motive c) → motive (Node.mk ty tx p fs nm cs)) :
    ∀ n, motive n
  | Node.mk ty tx p fs nm cs =>
      step ty tx p fs nm cs (fun c hc => Node.strongRec step c)
termination_by n => sizeOf n
decreasing_by
  have h := List.sizeOf_lt_of_mem hc
  simp only [Node.mk.sizeOf_spec]
  omega

/-- JavaScript `filePath.replace(/\\/g, '/')`: every backslash becomes a
forward slash. -/
def normalizeSlashes (s : String) : List Char :=
  s.toList.map (fun c => if c = Char.ofNat 92 then '/' else c)

/-- Boolean contiguous-sublist test, modelling JavaScript
`String.prototype.includes`. -/
def isInfixOfB (needle hay : List Char) : Bool :=
  match hay with
  | [] => needle.isEmpty
  | _ :: t => needle.isPrefixOf hay || isInfixOfB needle t

/-- Boolean suffix test, modelling JavaScript `String.prototype.endsWith`. -/
def endsWithB (s suffix : String) : Bool :=
  suffix.toList.isSuffixOf s.toList

/-- JavaScript `text.replace(/['"]/g, '')`: delete every single and double
quote character. -/
def stripQuotes (s : String) : String :=
  String.mk (s.toList.filter (fun c => !(c == Char.ofNat 39) && !(c == Char.ofNat 34)))

/-- Drops an exact literal character sequence from the front, returning the
remainder when the sequence is a prefix. -/
def dropPre : List Char → List Char → Option (List Char)
  | [], s => some s
  | _ :: _, [] => none
  | a :: as, b :: bs => if a = b then dropPre as bs else none

/-- Leftmost match of the regular expression `lit\/([^/]+)` (with `lit` a
literal): scanning start offsets left to right, at the first offset where
the literal occurs followed by a slash and at least one non-slash
character, return the maximal non-slash run after that slash. -/
def matchLitSlashSeg (lit : List Char) (s : List Char) : Option (List Char) :=
  match s with
  | [] => none
  | _ :: rest =>
    match dropPre lit s with
    | some (h :: t) =>
      if h = '/' then
        let seg := t.takeWhile (fun c => c != '/')
        if seg.isEmpty then matchLitSlashSeg lit rest else some seg
      else matchLitSlashSeg lit rest
    | _ => matchLitSlashSeg lit rest

/-- Configuration for domain dependency checking
(src/linter/rules/noTestNameWithShould.ts `DomainDependenciesConfig`); the
`dependencies` object is modelled as an association list. -/
structure DomainDependenciesConfig where
  domainPath : String
  importAlias : String
  rootFiles : List String
  dependencies : List (String × List String)

/-- JavaScript object lookup `dependencies[fromDomain]`: the entry for the
key, if any. -/
def lookupDeps (deps : List (String × List String)) (k : String) : Option (List String) :=
  (deps.find? (fun p => p.1 == k)).map (fun p => p.2)

/-- `getDomainFromPath`: normalize separators, then match
`domainPath\/([^/]+)` and return the captured segment. -/
def getDomainFromPath (cfg : DomainDependenciesConfig) (filePath : String) : Option String :=
  (matchLitSlashSeg cfg.domainPath.toList (normalizeSlashes filePath)).map String.mk

/-- `getDomainFromImport`: require the import source to start with the
alias's leading segment, match `importAlias\/([^/]+)`, and reject root
files. -/
def getDomainFromImport (cfg : DomainDependenciesConfig) (importSource : String) : Option String :=
  if (cfg.importAlias.toList.takeWhile (fun c => c != '/')).isPrefixOf importSource.toList then
    match matchLitSlashSeg cfg.importAlias.toList importSource.toList with
    | none => none
    | some seg =>
      if cfg.rootFiles.contains (String.mk seg) then none
      else some (String.mk seg)
  else none

/-- `isImportAllowed`: self-imports always allowed; a domain absent from
the mapping allows nothing; a wildcard entry allows everything; otherwise
literal membership. -/
def isImportAllowed (deps : List (String × List String)) (fromDomain toDomain : String) : Bool :=
  if fromDomain = toDomain then true
  else
    match lookupDeps deps fromDomain with
    | none => false
    | some allowed => allowed.contains "*" || allowed.contains toDomain

/-- The message of a domain-dependencies violation. -/
def domainDepsMessage (fromDomain toDomain allowedList : String) : String :=
  "Domain " ++ sq ++ fromDomain ++ sq ++ " cannot import from domain " ++ sq
    ++ toDomain ++ sq ++ ". Allowed domain imports: [" ++ allowedList ++ "]"

/-- The check function of the domain-dependencies rule. -/
def domainDependenciesCheck (cfg : DomainDependenciesConfig) (node : Node) (filePath : String) :
    Option LintError :=
  if node.type != "import_statement" then none
  else if endsWithB filePath ".test.ts" || endsWithB filePath ".test.tsx" then none
  else
    match getDomainFromPath cfg filePath with
    | none => none
    | some fromDomain =>
      match node.childForFieldName "source" with
      | none => none
      | some sourceNode =>
        let importSource := stripQuotes sourceNode.text
        match getDomainFromImport cfg importSource with
        | none => none
        | some toDomain =>
          if isImportAllowed cfg.dependencies fromDomain toDomain then none
          else
            let allowed := (lookupDeps cfg.dependencies fromDomain).getD []
            let allowedList := if allowed.length > 0 then String.intercalate ", " allowed else "none"
            some { file := filePath
                   line := node.startPosition.row + 1
                   column := node.startPosition.column + 1
                   message := domainDepsMessage fromDomain toDomain allowedList
                   ruleName := "domain-dependencies" }

/-- `createDomainDependenciesRule`: the configured rule. -/
def createDomainDependenciesRule (cfg : DomainDependenciesConfig) : Rule :=
  { name := "domain-dependencies"
    check := fun node filePath => domainDependenciesCheck cfg node filePath }

/-- Configuration for the no-primitive-obsession rule
(src/linter/rules/noPrimitiveObsession.ts `NoPrimitiveObsessionConfig`). -/
structure NoPrimitiveObsessionConfig where
  enforcedPaths : List String
  exemptPaths : List String
  exemptParams : List String
  primitives : List String

/-- The three function-like node types the rule inspects. -/
def FUNCTION_NODE_TYPES : List String :=
  ["function_declaration", "arrow_function", "method_definition"]

/-- `isEnforcedPath`: the normalized path contains some enforced-path
pattern as a substring. -/
def isEnforcedPath (cfg : NoPrimitiveObsessionConfig) (filePath : String) : Bool :=
  cfg.enforcedPaths.any (fun pat => isInfixOfB pat.toList (normalizeSlashes filePath))

/-- `isExemptPath`: a pattern starting with the directory wildcard marker
matches when the normalized path ends with the rest of the pattern; any
other pattern matches by substring containment. -/
def isExemptPath (cfg : NoPrimitiveObsessionConfig) (filePath : String) : Bool :=
  cfg.exemptPaths.any (fun pat =>
    match pat.toList with
    | '*' :: '*' :: '/' :: filename => filename.isSuffixOf (normalizeSlashes filePath)
    | _ => isInfixOfB pat.toList (normalizeSlashes filePath))

/-- JavaScript `s.charAt(0).toUpperCase() + s.slice(1)`. -/
def capitalize (s : String) : String :=
  match s.toList with
  | [] => ""
  | c :: rest => String.mk (c.toUpper :: rest)

/-- The message of a no-primitive-obsession violation. -/
def primitiveObsessionMessage (typeName paramName exemptList : String) : String :=
  "Primitive type " ++ sq ++ typeName ++ sq ++ " used for parameter " ++ sq
    ++ paramName ++ sq ++ " in domain layer. Use a branded type (e.g., "
    ++ capitalize paramName ++ "Id or " ++ capitalize paramName
    ++ ") to avoid primitive obsession. Exempt params: [" ++ exemptList
    ++ "]. Configure in no-primitive-obsession.json."

/-- One iteration of the parameter loop in `checkParameters`: skip
non-plain parameters, exempt names, untyped parameters and non-primitive
annotations; otherwise produce the violation for this parameter. -/
def paramCheck (cfg : NoPrimitiveObsessionConfig) (filePath : String) (param : Node) :
    Option LintError :=
  if param.type != "required_parameter" && param.type != "optional_parameter" then none
  else
    match param.childForFieldName "pattern" with
    | none => none
    | some nameNode =>
      let paramName := nameNode.text
      if cfg.exemptParams.contains paramName then none
      else
        match param.childForFieldName "type" with
        | none => none
        | some typeNode =>
          match typeNode.namedChildren.head? with
          | none => none
          | some actualType =>
            if actualType.type == "predefined_type" then
              let typeName := actualType.text
              if cfg.primitives.contains typeName then
                let exemptList :=
                  if cfg.exemptParams.length > 0 then String.intercalate ", " cfg.exemptParams
                  else "none"
                some { file := filePath
                       line := param.startPosition.row + 1
                       column := param.startPosition.column + 1
                       message := primitiveObsessionMessage typeName paramName exemptList
                       ruleName := "no-primitive-obsession" }
              else none
            else none

/-- The parameter loop of `checkParameters`: return the first violation
found, in parameter-list order. -/
def checkParamList (cfg : NoPrimitiveObsessionConfig) (filePath : String) :
    List Node → Option LintError
  | [] => none
  | p :: rest =>
    match paramCheck cfg filePath p with
    | some v => some v
    | none => checkParamList cfg filePath rest

/-- `checkParameters`: fetch the `parameters` (or `parameter`) field, skip
the bare-identifier single-parameter shape, then run the parameter loop
over the named children. -/
def checkParameters (cfg : NoPrimitiveObsessionConfig) (node : Node) (filePath : String) :
    Option LintError :=
  match node.childForFieldName "parameters" <|> node.childForFieldName "parameter" with
  | none => none
  | some parametersNode =>
    if parametersNode.type == "identifier" then none
    else checkParamList cfg filePath parametersNode.namedChildren

/-- The check function of the no-primitive-obsession rule. -/
def noPrimitiveObsessionCheck (cfg : NoPrimitiveObsessionConfig) (node : Node)
    (filePath : String) : Option LintError :=
  if !(FUNCTION_NODE_TYPES.contains node.type) then none
  else if endsWithB filePath ".test.ts" || endsWithB filePath ".test.tsx" then none
  else if !(isEnforcedPath cfg filePath) then none
  else if isExemptPath cfg filePath then none
  else checkParameters cfg node filePath

/-- `createNoPrimitiveObsessionRule`: the configured rule. -/
def createNoPrimitiveObsessionRule (cfg : NoPrimitiveObsessionConfig) : Rule :=
  { name := "no-primitive-obsession"
    check := fun node filePath => noPrimitiveObsessionCheck cfg node filePath }

/-- The static message of the no-direct-shadcn-imports rule. -/
def shadcnErrorMessage : String :=
  "Direct imports from shadcn components are not allowed outside of src/components/.\n\n"
    ++ "Always wrap shadcn/ui components in src/components/ui/ and import from there instead.\n"
    ++ "This provides a single point of customization and decouples app code from the component library.\n\n"
    ++ "Example:\n  // Bad: Direct import from shadcn\n  import \x7b Button \x7d from "
    ++ sq ++ "@/shadcn/components/ui/button" ++ sq ++ ";\n\n"
    ++ "  // Good: Import from wrapper\n  import \x7b Button \x7d from "
    ++ sq ++ "@/components/ui" ++ sq ++ ";"

/-- `isShadcnImport`: the import source mentions the vendored library. -/
def isShadcnImport (source : String) : Bool :=
  isInfixOfB "shadcn".toList source.toList || isInfixOfB "/shadcn/".toList source.toList

/-- `isAllowedToImportShadcn`: the file lives under the wrapper or vendored
directories (either separator style). -/
def isAllowedToImportShadcn (filePath : String) : Bool :=
  isInfixOfB "src/components/".toList filePath.toList
    || isInfixOfB "src\\components\\".toList filePath.toList
    || isInfixOfB "src/shadcn/".toList filePath.toList
    || isInfixOfB "src\\shadcn\\".toList filePath.toList

/-- The check function of the no-direct-shadcn-imports rule. -/
def noDirectShadcnImportsCheck (node : Node) (filePath : String) : Option LintError :=
  if node.type != "import_statement" then none
  else
    match node.childForFieldName "source" with
    | none => none
    | some sourceNode =>
      let source := stripQuotes sourceNode.text
      if isShadcnImport source && !(isAllowedToImportShadcn filePath) then
        some { file := filePath
               line := node.startPosition.row + 1
               column := node.startPosition.column + 1
               message := shadcnErrorMessage
               ruleName := "no-direct-shadcn-imports" }
      else none

/-- The no-direct-shadcn-imports rule. -/
def noDirectShadcnImportsRule : Rule :=
  { name := "no-direct-shadcn-imports"
    check := fun node filePath => noDirectShadcnImportsCheck node filePath }

/-- Concrete domain-dependencies configuration used by the concrete
instances below (matching the example configuration in the source). -/
def cfgD : DomainDependenciesConfig :=
  { domainPath := "src/domain", importAlias := "@/domain", rootFiles := ["cache"],
    dependencies := [("task", ["step"])] }

/-- A concrete import-statement node with the given (quoted) source
literal, as tree-sitter produces for a line `import x from '<src>'`. -/
def importNode (src : String) : Node :=
  Node.mk "import_statement" ("import x from " ++ sq ++ src ++ sq) ⟨4, 0⟩
    [("source", Node.mk "string" (sq ++ src ++ sq) ⟨4, 14⟩ [] [] [])] [] []

/-- Concrete no-primitive-obsession configuration from the spec scenario. -/
def cfgP : NoPrimitiveObsessionConfig :=
  { enforcedPaths := ["src/domain"], exemptPaths := ["**/mapper.ts"],
    exemptParams := ["count"], primitives := ["string", "number", "boolean"] }

/-- A concrete `required_parameter` node `<nm>: <ty>` at the given column,
with its `pattern` and `type` fields. -/
def mkParam (nm ty : String) (col : Nat) : Node :=
  Node.mk "required_parameter" (nm ++ ": " ++ ty) ⟨0, col⟩
    [("pattern", Node.mk "identifier" nm ⟨0, col⟩ [] [] []),
     ("type", Node.mk "type_annotation" (": " ++ ty) ⟨0, col + nm.length⟩ []
        [Node.mk "predefined_type" ty ⟨0, col + nm.length + 2⟩ [] [] []] [])] [] []

/-- The source text of the spec scenario, `function get(id: string)\x7b\x7d`. -/
def demoSource : String := "function get(id: string)\x7b\x7d"

/-- The `function_declaration` node of `function get(id: string)\x7b\x7d`. -/
def funcDecl : Node :=
  Node.mk "function_declaration" demoSource ⟨0, 0⟩
    [("name", Node.mk "identifier" "get" ⟨0, 9⟩ [] [] []),
     ("parameters", Node.mk "formal_parameters" "(id: string)" ⟨0, 12⟩ []
        [mkParam "id" "string" 13] [mkParam "id" "string" 13]),
     ("body", Node.mk "statement_block" "\x7b\x7d" ⟨0, 25⟩ [] [] [])]
    []
    [Node.mk "identifier" "get" ⟨0, 9⟩ [] [] [],
     Node.mk "formal_parameters" "(id: string)" ⟨0, 12⟩ []
       [mkParam "id" "string" 13] [mkParam "id" "string" 13],
     Node.mk "statement_block" "\x7b\x7d" ⟨0, 25⟩ [] [] []]

/-- The root `program` node of the spec-scenario tree. -/
def progTree : Node :=
  Node.mk "program" demoSource ⟨0, 0⟩ [] [funcDecl] [funcDecl]

/-- A `function_declaration` node for `function f(id: string, name: string)`
with two primitive-typed parameters. -/
def funcDeclTwo : Node :=
  Node.mk "function_declaration" "function f(id: string, name: string)" ⟨0, 0⟩
    [("name", Node.mk "identifier" "f" ⟨0, 9⟩ [] [] []),
     ("parameters", Node.mk "formal_parameters" "(id: string, name: string)" ⟨0, 10⟩ []
        [mkParam "id" "string" 11, mkParam "name" "string" 23]
        [mkParam "id" "string" 11, mkParam "name" "string" 23]),
     ("body", Node.mk "statement_block" "\x7b\x7d" ⟨0, 37⟩ [] [] [])]
    [] []

theorem collectAll_append (F : Node → List LintError) (a b : List Node) :
    collectAll F (a ++ b) = collectAll F a ++ collectAll F b := by
  induction a with
  | nil => simp [collectAll]
  | cons x xs ih => simp [collectAll, ih]

theorem traverse_eq_preorder (rules : List Rule) (fp : String) (n : Node) :
    traverseNode rules fp n
      = collectAll (fun m => rules.filterMap (fun r => r.check m fp)) (preorder n) := by
  induction n using Node.strongRec with
  | _ ty tx p fs nm cs ih =>
    have aux : ∀ l : List Node, (∀ c ∈ l, traverseNode rules fp c
          = collectAll (fun m => rules.filterMap (fun r => r.check m fp)) (preorder c)) →
        traverseChildren rules fp l
          = collectAll (fun m => rules.filterMap (fun r => r.check m fp)) (preorderChildren l) := by
      intro l
      induction l with
      | nil => intro _; rfl
      | cons c cs ihc =>
        intro h
        rw [traverseChildren, preorderChildren, collectAll_append,
          h c (List.mem_cons_self c cs), ihc (fun x hx => h x (List.mem_cons_of_mem c hx))]
    rw [traverseNode, preorder, collectAll]
    rw [aux cs ih]

/-- C1: for every file path and source text, `lint` parses the source and
performs a full pre-order traversal of the resulting tree, invoking every
registered rule in registration order at each node and appending each
non-none result, so the output sequence equals the concatenation, over the
pre-order node listing, of the per-node rule results in registration
order. -/
theorem lint_is_preorder_rule_collection (l : Linter) (parse : String → Node)
    (h : l.parser = some parse) (filePath sourceCode : String) :
    l.lint filePath sourceCode
      = Except.ok (collectAll (fun n => l.rules.filterMap (fun r => r.check n filePath))
          (preorder (parse sourceCode))) := by
  unfold Linter.lint
  rw [h]
  exact congrArg Except.ok (traverse_eq_preorder l.rules filePath (parse sourceCode))

theorem lint_is_preorder_rule_collection_witness :
    (Linter.mk [createNoPrimitiveObsessionRule cfgP] (some (fun _ => progTree)) true).lint
        "src/domain/task/repository.ts" demoSource
      = Except.ok (collectAll
          (fun n => [createNoPrimitiveObsessionRule cfgP].filterMap
            (fun r => r.check n "src/domain/task/repository.ts"))
          (preorder ((fun _ : String => progTree) demoSource))) :=
  lint_is_preorder_rule_collection
    (Linter.mk [createNoPrimitiveObsessionRule cfgP] (some (fun _ => progTree)) true)
    (fun _ => progTree) rfl "src/domain/task/repository.ts" demoSource

theorem foldl_addRule_parser_eq (rs : List Rule) (l : Linter) :
    (rs.foldl Linter.addRule l).parser = l.parser := by
  induction rs generalizing l with
  | nil => rfl
  | cons r rs ih => simpa [Linter.addRule] using ih (l.addRule r)

/-- C4: calling `lint` before `init` has completed fails fast: on a freshly
constructed engine, after any sequence of rule registrations, `lint`
returns the error identifying that the linter is not initialized, and no
violation sequence is produced. -/
theorem lint_before_init_fails (rules : List Rule) (filePath sourceCode : String) :
    (rules.foldl Linter.addRule Linter.new).lint filePath sourceCode
      = Except.error "Linter not initialized. Call init() first." := by
  unfold Linter.lint
  rw [foldl_addRule_parser_eq]
  rfl

/-- C8: `init` is idempotent: a second (or later) call after the first
completion is a no-op, so the whole engine state (hence everything
observable through `lint`) after two `init` calls equals the state after
one. -/
theorem init_idempotent (l : Linter) (p q : String → Node) :
    (l.init p).init q = l.init p := by
  unfold Linter.init
  by_cases h : l.initialized = true <;> simp [h]

/-- C2: when the importing file's domain has no entry in the dependencies
mapping, the rule fails closed: any import of a different domain through
the configured alias yields exactly one violation at the import statement,
naming both domains and listing the allowed destinations as the explicit
marker `none`. -/
theorem absent_domain_fail_closed (cfg : DomainDependenciesConfig) (node : Node)
    (filePath : String) (fromDomain toDomain : String) (sourceNode : Node)
    (hty : node.type = "import_statement")
    (htest : endsWithB filePath ".test.ts" = false)
    (htsx : endsWithB filePath ".test.tsx" = false)
    (hfrom : getDomainFromPath cfg filePath = some fromDomain)
    (hsrc : node.childForFieldName "source" = some sourceNode)
    (hto : getDomainFromImport cfg (stripQuotes sourceNode.text) = some toDomain)
    (habsent : lookupDeps cfg.dependencies fromDomain = none)
    (hne : fromDomain ≠ toDomain) :
    (createDomainDependenciesRule cfg).check node filePath
      = some { file := filePath
               line := node.startPosition.row + 1
               column := node.startPosition.column + 1
               message := domainDepsMessage fromDomain toDomain "none"
               ruleName := "domain-dependencies" } := by
  show domainDependenciesCheck cfg node filePath = _
  unfold domainDependenciesCheck
  simp only [hty, htest, htsx, hfrom, hsrc]
  simp only [hto]
  simp [isImportAllowed, habsent, hne]

theorem absent_domain_fail_closed_witness :
    (createDomainDependenciesRule cfgD).check (importNode "@/domain/handler/types")
        "src/domain/project/service.ts"
      = some { file := "src/domain/project/service.ts", line := 5, column := 1,
               message := domainDepsMessage "project" "handler" "none",
               ruleName := "domain-dependencies" } :=
  absent_domain_fail_closed cfgD (importNode "@/domain/handler/types")
    "src/domain/project/service.ts" "project" "handler"
    (Node.mk "string" (sq ++ "@/domain/handler/types" ++ sq) ⟨4, 14⟩ [] [] [])
    rfl (by decide) (by decide) (by decide) rfl (by decide) (by decide) (by decide)

/-- C3: an import statement whose derived importing domain equals the
derived imported domain is never flagged by the domain-dependencies rule,
for any configuration and any contents of the dependencies mapping. -/
theorem self_import_never_flagged (cfg : DomainDependenciesConfig) (node : Node)
    (filePath : String) (d : String) (sourceNode : Node)
    (hfrom : getDomainFromPath cfg filePath = some d)
    (hsrc : node.childForFieldName "source" = some sourceNode)
    (hto : getDomainFromImport cfg (stripQuotes sourceNode.text) = some d) :
    (createDomainDependenciesRule cfg).check node filePath = none := by
  show domainDependenciesCheck cfg node filePath = none
  unfold domainDependenciesCheck
  split
  · rfl
  split
  · rfl
  simp only [hfrom, hsrc]
  simp only [hto]
  simp [isImportAllowed]

theorem self_import_never_flagged_witness :
    (createDomainDependenciesRule cfgD).check (importNode "@/domain/project/helpers")
        "src/domain/project/service.ts" = none :=
  self_import_never_flagged cfgD (importNode "@/domain/project/helpers")
    "src/domain/project/service.ts" "project"
    (Node.mk "string" (sq ++ "@/domain/project/helpers" ++ sq) ⟨4, 14⟩ [] [] [])
    (by decide) rfl (by decide)

theorem dropPre_append (lit t : List Char) : dropPre lit (lit ++ t) = some t := by
  induction lit with
  | nil => rfl
  | cons a as ih => simp [dropPre, ih]

theorem takeWhile_no_slash (d r : List Char) (hs : ∀ c ∈ d, c ≠ '/') :
    (d ++ '/' :: r).takeWhile (fun c => c != '/') = d := by
  induction d with
  | nil => simp [List.takeWhile_cons]
  | cons c cs ih =>
    have hc : c ≠ '/' := hs c (List.mem_cons_self c cs)
    simp only [List.cons_append, List.takeWhile_cons]
    simp [hc, ih (fun x hx => hs x (List.mem_cons_of_mem c hx))]

theorem matchLitSlashSeg_leftmost (lit d r : List Char) (hd : d ≠ [])
    (hs : ∀ c ∈ d, c ≠ '/') :
    matchLitSlashSeg lit (lit ++ '/' :: (d ++ '/' :: r)) = some d := by
  have htw := takeWhile_no_slash d r hs
  cases lit with
  | nil =>
    rw [List.nil_append, matchLitSlashSeg]
    simp [dropPre, htw, hd]
  | cons a as =>
    have hdrop : dropPre (a :: as) (a :: (as ++ '/' :: (d ++ '/' :: r)))
        = some ('/' :: (d ++ '/' :: r)) := by
      simpa using dropPre_append (a :: as) ('/' :: (d ++ '/' :: r))
    rw [List.cons_append, matchLitSlashSeg, hdrop]
    simp [htw, hd]

theorem toList_append_eq (a b : String) : (a ++ b).toList = a.toList ++ b.toList :=
  String.data_append a b

theorem normalizeSlashes_append (a b : String) :
    normalizeSlashes (a ++ b) = normalizeSlashes a ++ normalizeSlashes b := by
  unfold normalizeSlashes
  rw [toList_append_eq, List.map_append]

theorem normalizeSlashes_of_no_backslash (a : String) (h : ∀ c ∈ a.toList, c ≠ Char.ofNat 92) :
    normalizeSlashes a = a.toList := by
  unfold normalizeSlashes
  rw [List.map_congr_left (fun c hc => if_neg (h c hc))]
  exact List.map_id' a.toList

theorem getDomainFromPath_nested (cfg : DomainDependenciesConfig) (d deeper : String)
    (hd : d.toList ≠ [])
    (hs : ∀ c ∈ d.toList, c ≠ '/')
    (hbs : ∀ c ∈ d.toList, c ≠ Char.ofNat 92)
    (hdp : ∀ c ∈ cfg.domainPath.toList, c ≠ Char.ofNat 92) :
    getDomainFromPath cfg (cfg.domainPath ++ "/" ++ d ++ "/" ++ deeper ++ "/file.ts") = some d := by
  have hnorm : normalizeSlashes (cfg.domainPath ++ "/" ++ d ++ "/" ++ deeper ++ "/file.ts")
      = cfg.domainPath.toList ++ '/' :: (d.toList ++ '/' ::
          (normalizeSlashes deeper ++ normalizeSlashes "/file.ts")) := by
    rw [normalizeSlashes_append, normalizeSlashes_append, normalizeSlashes_append,
      normalizeSlashes_append, normalizeSlashes_append,
      normalizeSlashes_of_no_backslash _ hdp, normalizeSlashes_of_no_backslash _ hbs]
    have h1 : normalizeSlashes "/" = ['/'] := by decide
    rw [h1]
    simp [List.append_assoc]
  unfold getDomainFromPath
  rw [hnorm, matchLitSlashSeg_leftmost cfg.domainPath.toList d.toList _ hd hs]
  rfl

theorem getDomainFromImport_nested (cfg : DomainDependenciesConfig) (d deeper : String)
    (hd : d.toList ≠ [])
    (hs : ∀ c ∈ d.toList, c ≠ '/')
    (hroot : d ∉ cfg.rootFiles) :
    getDomainFromImport cfg (cfg.importAlias ++ "/" ++ d ++ "/" ++ deeper) = some d := by
  have hlist : (cfg.importAlias ++ "/" ++ d ++ "/" ++ deeper).toList
      = cfg.importAlias.toList ++ '/' :: (d.toList ++ '/' :: deeper.toList) := by
    rw [toList_append_eq, toList_append_eq, toList_append_eq, toList_append_eq]
    have h1 : "/".toList = ['/'] := rfl
    rw [h1]
    simp [List.append_assoc]
  have hguard : (cfg.importAlias.toList.takeWhile (fun c => c != '/')).isPrefixOf
      (cfg.importAlias ++ "/" ++ d ++ "/" ++ deeper).toList = true := by
    rw [List.isPrefixOf_iff_prefix, hlist]
    exact (List.takeWhile_prefix _).trans (List.prefix_append _ _)
  have hcont : cfg.rootFiles.contains d = false := by
    cases hc : cfg.rootFiles.contains d
    · rfl
    · exact absurd (List.elem_iff.mp hc) hroot
  unfold getDomainFromImport
  rw [hguard]
  simp only [hlist, matchLitSlashSeg_leftmost cfg.importAlias.toList d.toList _ hd hs]
  have hmk : String.mk d.toList = d := rfl
  rw [hmk, hcont]
  rfl

/-- C6: domain identity is the first path segment after the configured
prefix, symmetrically on both sides: a file at `domainPath/<d>/<deeper>/file.ts`
belongs to domain `<d>`, and an import source `importAlias/<d>/<deeper>`
is an import of domain `<d>`, for every deeper segment sequence. -/
theorem domain_identity_first_segment (cfg : DomainDependenciesConfig) (d deeper : String)
    (hd : d ≠ "")
    (hs : ∀ c ∈ d.toList, c ≠ '/')
    (hbs : ∀ c ∈ d.toList, c ≠ Char.ofNat 92)
    (hdp : ∀ c ∈ cfg.domainPath.toList, c ≠ Char.ofNat 92)
    (hroot : d ∉ cfg.rootFiles) :
    getDomainFromPath cfg (cfg.domainPath ++ "/" ++ d ++ "/" ++ deeper ++ "/file.ts") = some d
      ∧ getDomainFromImport cfg (cfg.importAlias ++ "/" ++ d ++ "/" ++ deeper) = some d := by
  have hdl : d.toList ≠ [] := by
    intro h
    apply hd
    have hmk : d = String.mk d.toList := rfl
    rw [hmk, h]
  exact ⟨getDomainFromPath_nested cfg d deeper hdl hs hbs hdp,
         getDomainFromImport_nested cfg d deeper hdl hs hroot⟩

theorem domain_identity_first_segment_witness :
    getDomainFromPath cfgD (cfgD.domainPath ++ "/" ++ "task" ++ "/" ++ "sub/dir" ++ "/file.ts")
        = some "task"
      ∧ getDomainFromImport cfgD (cfgD.importAlias ++ "/" ++ "task" ++ "/" ++ "sub/dir")
        = some "task" :=
  domain_identity_first_segment cfgD "task" "sub/dir" (by decide) (by decide) (by decide)
    (by decide) (by decide)

/-- C10: an import-statement node with no `source` named child (as
tree-sitter error recovery can produce) yields no violation from either
the domain-dependencies rule or the no-direct-shadcn-imports rule: both
check functions guard the missing field and return none. -/
theorem missing_source_field_safe (cfg : DomainDependenciesConfig) (node : Node)
    (filePath : String) (h : node.childForFieldName "source" = none) :
    (createDomainDependenciesRule cfg).check node filePath = none
      ∧ noDirectShadcnImportsRule.check node filePath = none := by
  constructor
  · show domainDependenciesCheck cfg node filePath = none
    unfold domainDependenciesCheck
    split
    · rfl
    split
    · rfl
    cases getDomainFromPath cfg filePath with
    | none => rfl
    | some fromDomain => simp only [h]
  · show noDirectShadcnImportsCheck node filePath = none
    unfold noDirectShadcnImportsCheck
    split
    · rfl
    rw [h]

theorem missing_source_field_safe_witness :
    (createDomainDependenciesRule cfgD).check (Node.mk "import_statement" "import" ⟨0, 0⟩ [] [] [])
        "src/domain/project/service.ts" = none
      ∧ noDirectShadcnImportsRule.check (Node.mk "import_statement" "import" ⟨0, 0⟩ [] [] [])
        "src/domain/project/service.ts" = none :=
  missing_source_field_safe cfgD (Node.mk "import_statement" "import" ⟨0, 0⟩ [] [] [])
    "src/domain/project/service.ts" rfl

theorem checkParamList_first (cfg : NoPrimitiveObsessionConfig) (filePath : String)
    (pre post : List Node) (p : Node) (v : LintError)
    (hpre : ∀ q ∈ pre, paramCheck cfg filePath q = none)
    (hp : paramCheck cfg filePath p = some v) :
    checkParamList cfg filePath (pre ++ p :: post) = some v := by
  induction pre with
  | nil =>
    rw [List.nil_append, checkParamList, hp]
  | cons q qs ih =>
    rw [List.cons_append, checkParamList, hpre q (List.mem_cons_self q qs)]
    exact ih (fun x hx => hpre x (List.mem_cons_of_mem q hx))

/-- C5: for a function-like node in an enforced, non-exempt path, when the
parameter list splits as non-violating parameters followed by a violating
parameter (followed by arbitrary further parameters, possibly also
violating), the rule reports exactly that first violating parameter's
violation. -/
theorem first_violating_parameter_reported (cfg : NoPrimitiveObsessionConfig)
    (node parametersNode : Node) (filePath : String)
    (pre post : List Node) (p : Node) (v : LintError)
    (hty : FUNCTION_NODE_TYPES.contains node.type = true)
    (htest : endsWithB filePath ".test.ts" = false)
    (htsx : endsWithB filePath ".test.tsx" = false)
    (henf : isEnforcedPath cfg filePath = true)
    (hex : isExemptPath cfg filePath = false)
    (hparams : node.childForFieldName "parameters" = some parametersNode)
    (hnotid : parametersNode.type ≠ "identifier")
    (hsplit : parametersNode.namedChildren = pre ++ p :: post)
    (hpre : ∀ q ∈ pre, paramCheck cfg filePath q = none)
    (hp : paramCheck cfg filePath p = some v) :
    (createNoPrimitiveObsessionRule cfg).check node filePath = some v := by
  show noPrimitiveObsessionCheck cfg node filePath = some v
  unfold noPrimitiveObsessionCheck
  rw [hty, htest, htsx, henf, hex]
  simp only [Bool.not_true, Bool.or_self, Bool.false_eq_true, if_false, ite_false]
  unfold checkParameters
  rw [hparams]
  simp only [Option.some_orElse]
  have hne : (parametersNode.type == "identifier") = false := by
    simp [hnotid]
  rw [hne]
  simp only [Bool.false_eq_true, if_false]
  rw [hsplit]
  exact checkParamList_first cfg filePath pre post p v hpre hp

set_option maxRecDepth 4000 in
theorem first_violating_parameter_reported_witness :
    (createNoPrimitiveObsessionRule cfgP).check funcDeclTwo "src/domain/task/service.ts"
      = some { file := "src/domain/task/service.ts", line := 1, column := 12,
               message := primitiveObsessionMessage "string" "id" "count",
               ruleName := "no-primitive-obsession" } :=
  first_violating_parameter_reported cfgP funcDeclTwo
    (Node.mk "formal_parameters" "(id: string, name: string)" ⟨0, 10⟩ []
      [mkParam "id" "string" 11, mkParam "name" "string" 23]
      [mkParam "id" "string" 11, mkParam "name" "string" 23])
    "src/domain/task/service.ts" [] [mkParam "name" "string" 23]
    (mkParam "id" "string" 11) _
    (by decide) (by decide) (by decide) (by decide) (by decide) rfl (by decide) rfl
    (by simp) (by decide)

/-- C7: for every source file whose normalized path contains no configured
enforced-path substring — including every file when `enforcedPaths` is
empty — the primitive-obsession rule never emits a violation, whatever the
node. -/
theorem outside_enforced_paths_no_violation (cfg : NoPrimitiveObsessionConfig)
    (node : Node) (filePath : String)
    (h : ∀ pat ∈ cfg.enforcedPaths, isInfixOfB pat.toList (normalizeSlashes filePath) = false) :
    (createNoPrimitiveObsessionRule cfg).check node filePath = none := by
  have henf : isEnforcedPath cfg filePath = false := by
    unfold isEnforcedPath
    rw [List.any_eq_false]
    intro pat hpat
    rw [h pat hpat]
    exact Bool.false_ne_true
  show noPrimitiveObsessionCheck cfg node filePath = none
  unfold noPrimitiveObsessionCheck
  rw [henf]
  split
  · rfl
  split
  · rfl
  simp

theorem outside_enforced_paths_no_violation_witness :
    (createNoPrimitiveObsessionRule
        { enforcedPaths := [], exemptPaths := ["**/mapper.ts"],
          exemptParams := ["count"], primitives := ["string", "number", "boolean"] }).check
      funcDecl "src/domain/task/repository.ts" = none :=
  outside_enforced_paths_no_violation
    { enforcedPaths := [], exemptPaths := ["**/mapper.ts"],
      exemptParams := ["count"], primitives := ["string", "number", "boolean"] }
    funcDecl "src/domain/task/repository.ts" (by simp)

/-- C9: with the spec-scenario configuration, linting the tree of
`function get(id: string)` at `src/domain/task/repository.ts` yields
exactly one violation whose message contains "string" and "id", while
linting the identical tree at `src/domain/task/mapper.ts` yields zero
violations (the `**/mapper.ts` exempt pattern matches by filename suffix
anywhere in the path). -/
theorem concrete_scenario_repository_and_mapper :
    ((Linter.new.init (fun _ => progTree)).addRule (createNoPrimitiveObsessionRule cfgP)).lint
        "src/domain/task/repository.ts" demoSource
      = Except.ok [{ file := "src/domain/task/repository.ts", line := 1, column := 14,
                     message := primitiveObsessionMessage "string" "id" "count",
                     ruleName := "no-primitive-obsession" }]
    ∧ isInfixOfB "string".toList (primitiveObsessionMessage "string" "id" "count").toList = true
    ∧ isInfixOfB "id".toList (primitiveObsessionMessage "string" "id" "count").toList = true
    ∧ ((Linter.new.init (fun _ => progTree)).addRule (createNoPrimitiveObsessionRule cfgP)).lint
        "src/domain/task/mapper.ts" demoSource = Except.ok [] :=
  ⟨rfl, by decide, by decide, rfl⟩

end Linting
